import Mathlib

/-!
# Verification of the Zappies booking / availability core

Shallow embedding of the availability calculator, booking operations and
reminder scheduler of the repository (files `tools/google_calendar.py`,
`tools/custom_tools.py`, `tools/scheduler.py`, `api/server.py`).

Time is modelled as whole minutes since an epoch, all in the single fixed
IANA timezone the application uses (`settings.VOICE_AGENT_CONFIG.TIMEZONE`);
`pytz.localize` / `astimezone` on that one zone are the identity in this
model.  A calendar day is `t / 1440`; the hour of day is `t % 1440 / 60`.
-/

/-- Half-open time interval `[start, stop)` of a calendar event, in minutes.
Mirrors the `event['start']`/`event['end']` pair read in
`get_available_slots` (`tools/google_calendar.py`). -/
structure TimeInterval where
  start : Nat
  stop : Nat
deriving DecidableEq

/-- Modelled from the spec: `config/settings.py` is not under `src/`.  The
spec fixes the appointment slot duration at 60 minutes ("1-hour slots",
`APPOINTMENT_DURATION_MINUTES`). -/
def APPOINTMENT_DURATION_MINUTES : Nat := 60

/-- The candidate-slot `while` loop of `get_available_slots`
(`tools/google_calendar.py` lines 90-113): starting at `current`, while
`current < working_hours_end`, break as soon as the slot would end after the
working-hours end, keep the slot when it overlaps no fetched event
(`current < event_end and slot_end > event_start`), and step by a fixed 60
minutes. -/
def slotLoop (slotDuration whEnd : Nat) (events : List TimeInterval) (current : Nat) :
    List Nat :=
  if h : current < whEnd then
    if current + slotDuration > whEnd then
      []
    else if events.any (fun ev =>
        decide (current < ev.stop) && decide (current + slotDuration > ev.start)) then
      slotLoop slotDuration whEnd events (current + 60)
    else
      current :: slotLoop slotDuration whEnd events (current + 60)
  else
    []
termination_by whEnd - current
decreasing_by all_goals omega

/-- `get_available_slots(date)` (`tools/google_calendar.py` lines 47-114).
The effectful collaborators are passed as explicit arguments:

* `service` — the outcome of `get_calendar_service()`; the Python call sits
  outside every `try`, so an `.error` propagates (the function `raise`s);
* `date` — the parsed ISO date (`some day` on success); a parse failure is
  caught and yields `[]`;
* `fetch` — the outcome of the `events().list(...)` call; its failure is
  caught and yields `[]` ("Return empty list on error");
* `startHour`, `endHour` — `BUSINESS_HOURS_START` / `BUSINESS_HOURS_END`;
* `slotDuration` — `APPOINTMENT_DURATION_MINUTES`. -/
def get_available_slots (service : Except String Unit) (date : Option Nat)
    (fetch : Except String (List TimeInterval))
    (startHour endHour slotDuration : Nat) : Except String (List Nat) :=
  match service with
  | .error e => .error e
  | .ok _ =>
    match date with
    | none => .ok []
    | some day =>
      let working_hours_start := day * 1440 + startHour * 60
      let working_hours_end := day * 1440 + endHour * 60
      match fetch with
      | .error _ => .ok []
      | .ok events => .ok (slotLoop slotDuration working_hours_end events working_hours_start)

/-!
## Booking state: meetings, calendar events, notification logs

`ServerState` gathers the storage tables and collaborator side effects that
the booking endpoints touch: the external Google calendar, the Supabase
`meetings` and `call_history` tables, and the e-mail / SMS dispatch logs
(an entry records one dispatch attempt).
-/

/-- One event on the external Google calendar, as built by
`create_calendar_event` (`tools/google_calendar.py` lines 167-208). -/
structure CalEvent where
  id : Nat
  start : Nat
  stop : Nat
  lead_email : String
  summary : String
  description : String
deriving DecidableEq

/-- One row of the Supabase `meetings` table (fields as inserted by
`tools/custom_tools.py` and `api/server.py`). -/
structure Meeting where
  id : Nat
  full_name : String
  email : String
  company_name : String
  start_time : Nat
  goal : String
  monthly_budget : ℚ
  client_number : Option String
  google_calendar_event_id : Option Nat
  status : String
  reminder_24h_sent : Bool
  reminder_morning_sent : Bool
  reminder_1h_sent : Bool
deriving DecidableEq

/-- One row of the Supabase `call_history` table (the fields relevant to the
claims; `api/server.py` lines 353-365). -/
structure CallRecord where
  full_name : String
  email : String
  client_number : Option String
  resulted_in_meeting : Bool
deriving DecidableEq

/-- The storage and side-effect state the booking operations act on. -/
structure ServerState where
  calendar : List CalEvent
  nextEventId : Nat
  meetings : List Meeting
  nextMeetingId : Nat
  call_history : List CallRecord
  emails_sent : List String
  sms_sent : List String
deriving DecidableEq

/-- `create_calendar_event` (`tools/google_calendar.py` lines 167-208):
validates the start against "now" (past first, then same calendar day), and
on success inserts a fresh event on the calendar.  The raised `ValueError`
messages are the error payloads. -/
def create_calendar_event (now start_time : Nat) (summary description : String)
    (attendees : List String) (s : ServerState) : Except String (CalEvent × ServerState) :=
  if start_time < now then
    .error "Cannot book an appointment in the past."
  else if start_time / 1440 = now / 1440 then
    .error "Cannot book a same-day appointment. Please book for the next business day or later."
  else
    let lead_email := attendees.headD "N/A"
    let full_description :=
      if lead_email = "N/A" then description
      else description ++ "\n\n---\nLead Contact: " ++ lead_email
    let ev : CalEvent :=
      { id := s.nextEventId, start := start_time,
        stop := start_time + APPOINTMENT_DURATION_MINUTES,
        lead_email := lead_email, summary := summary, description := full_description }
    .ok (ev, { s with calendar := s.calendar ++ [ev], nextEventId := s.nextEventId + 1 })

/-- Outcome of the `/book-appointment` handler: `validationFailed e` is the
`JSONResponse(400, {error: e})` branch for the caught `ValueError`. -/
inductive VoiceBookResult where
  | booked
  | validationFailed (error : String)
deriving DecidableEq

/-- Argument schema of `/book-appointment` (`VoiceBookingRequest` in
`tools/action_schemas.py`), with `start_time` already parsed to minutes. -/
structure VoiceBookingRequest where
  name : String
  email : String
  start_time : Nat
  goal : String
  monthly_budget : ℚ
  company_name : String
  client_number : Option String
  call_duration_seconds : Nat
deriving DecidableEq

/-- `/book-appointment` (`api/server.py` lines 309-430), immediate (voice)
mode: create the calendar event first (this performs the past / same-day
validation), then insert the `meetings` row as `confirmed`, insert the
`call_history` row, attempt the direct confirmation e-mail, and attempt the
SMS when a phone number is present (both notification failures are caught
and non-fatal, so the attempt is logged either way). -/
def book_voice_appointment (now : Nat) (req : VoiceBookingRequest) (s : ServerState) :
    VoiceBookResult × ServerState :=
  let summary := "Onboarding call with " ++ req.name ++ " from " ++ req.company_name
  let description := "Stated Goal: " ++ req.goal
  match create_calendar_event now req.start_time summary description [req.email] s with
  | .error e => (.validationFailed e, s)
  | .ok (ev, s1) =>
    let m : Meeting :=
      { id := s1.nextMeetingId, full_name := req.name, email := req.email,
        company_name := req.company_name, start_time := req.start_time,
        goal := req.goal, monthly_budget := req.monthly_budget,
        client_number := req.client_number,
        google_calendar_event_id := some ev.id, status := "confirmed",
        reminder_24h_sent := false, reminder_morning_sent := false,
        reminder_1h_sent := false }
    let s2 := { s1 with meetings := s1.meetings ++ [m],
                        nextMeetingId := s1.nextMeetingId + 1 }
    let callRec : CallRecord :=
      { full_name := req.name, email := req.email,
        client_number := req.client_number, resulted_in_meeting := true }
    let s3 := { s2 with call_history := s2.call_history ++ [callRec] }
    let s4 := { s3 with emails_sent := s3.emails_sent ++ [req.email] }
    let s5 :=
      match req.client_number with
      | some numb => { s4 with sms_sent := s4.sms_sent ++ [numb] }
      | none => s4
    (.booked, s5)

/-- The minimum monthly budget constant defined inline in
`book_zappies_onboarding_call_from_json` (`MINIMUM_BUDGET = 8000.0`,
`tools/custom_tools.py` line 97). -/
def MINIMUM_BUDGET : ℚ := 8000

/-- Outcome of the agent booking tool (its returned message, abstracted):
`disqualified` is the budget disqualification message; `bookingFailed` is
the apology message the outer exception handler returns (the cannot-book
error text carrying the exception). -/
inductive AgentBookResult where
  | disqualified
  | bookingFailed
deriving DecidableEq

/-- Argument schema of the agent booking tool (`BookOnboardingCallArgs`),
with `start_time` already parsed to minutes. -/
structure BookOnboardingCallArgs where
  full_name : String
  email : String
  company_name : String
  start_time : Nat
  goal : String
  monthly_budget : ℚ
deriving DecidableEq

/-- `book_zappies_onboarding_call_from_json` (`tools/custom_tools.py` lines
89-162), deferred-confirmation (agent) mode, after JSON validation: below
the budget threshold it returns the disqualification message and stops;
otherwise it inserts a `meetings` row with status `pending_confirmation`
(no calendar event, no start-time validation).  The subsequent
`conversation_history` update (line 143) evaluates the undefined name
`conversation_id` and raises NameError; its own `except` handler (line
149) re-evaluates that name in the log f-string, so a NameError escapes
to the outer handler (line 160) before `send_confirmation_email` ever
runs: the inserted row persists, no e-mail is sent, and the error message
is returned. -/
def book_zappies_onboarding_call_from_json (args : BookOnboardingCallArgs)
    (s : ServerState) : AgentBookResult × ServerState :=
  if args.monthly_budget < MINIMUM_BUDGET then
    (.disqualified, s)
  else
    let m : Meeting :=
      { id := s.nextMeetingId, full_name := args.full_name, email := args.email,
        company_name := args.company_name, start_time := args.start_time,
        goal := args.goal, monthly_budget := args.monthly_budget,
        client_number := none, google_calendar_event_id := none,
        status := "pending_confirmation",
        reminder_24h_sent := false, reminder_morning_sent := false,
        reminder_1h_sent := false }
    let s1 := { s with meetings := s.meetings ++ [m],
                       nextMeetingId := s.nextMeetingId + 1 }
    (.bookingFailed, s1)

/-- Outcome of `/confirm-meeting/{id}` (its returned HTML page, abstracted):
`confirmFailed` is the generic error page returned when the calendar-event
creation raises (its exception is caught after no database write). -/
inductive ConfirmResult where
  | notFound
  | alreadyConfirmed
  | confirmed
  | confirmFailed
deriving DecidableEq

/-- `/confirm-meeting/{meeting_id}` (`api/server.py` lines 180-244): look the
meeting up; no-op if already `confirmed`; otherwise create the calendar
event (which re-runs the past / same-day validation on the stored
`start_time`), then set the row to `confirmed` with the event id, and
attempt the SMS confirmation when a phone number is stored. -/
def confirm_meeting (now : Nat) (meeting_id : Nat) (s : ServerState) :
    ConfirmResult × ServerState :=
  match s.meetings.find? (fun m => m.id == meeting_id) with
  | none => (.notFound, s)
  | some m =>
    if m.status = "confirmed" then
      (.alreadyConfirmed, s)
    else
      let summary := "Onboard Call with " ++ m.company_name ++ " | Zappies AI"
      let description := "Stated Goal: " ++ m.goal
      match create_calendar_event now m.start_time summary description [] s with
      | .error _ => (.confirmFailed, s)
      | .ok (ev, s1) =>
        let s2 :=
          { s1 with meetings :=
              s1.meetings.map (fun x =>
                if x.id == meeting_id then
                  { x with status := "confirmed", google_calendar_event_id := some ev.id }
                else x) }
        let s3 :=
          match m.client_number with
          | some numb => { s2 with sms_sent := s2.sms_sent ++ [numb] }
          | none => s2
        (.confirmed, s3)

/-- `find_event_by_details` (`tools/google_calendar.py` lines 117-136): list
the calendar events overlapping `[original_start_time, +1 min)` whose
private `lead_email` property matches, and return the first id, if any. -/
def find_event_by_details (email : String) (original_start_time : Nat)
    (cal : List CalEvent) : Option Nat :=
  ((cal.filter (fun ev =>
      ev.lead_email == email && decide (ev.start < original_start_time + 1)
        && decide (original_start_time < ev.stop))).head?).map (fun ev => ev.id)

/-- `delete_calendar_event` (`tools/google_calendar.py` lines 156-165): the
provider delete removes the event; on a missing event it raises HTTP 410,
which the function catches and treats as success (already deleted). -/
def delete_calendar_event (event_id : Nat) (cal : List CalEvent) :
    Except String (List CalEvent) :=
  if cal.any (fun ev => ev.id == event_id) then
    .ok (cal.filter (fun ev => !(ev.id == event_id)))
  else
    .ok cal

/-- Outcome of the cancellation tool (its returned message, abstracted). -/
inductive CancelResult where
  | notFound
  | canceled
  | cancelError
deriving DecidableEq

/-- Argument schema of the cancellation tool (`CancelAppointmentArgs`). -/
structure CancelAppointmentArgs where
  email : String
  original_start_time : Nat
deriving DecidableEq

/-- `cancel_appointment_from_json` (`tools/custom_tools.py` lines 204-224):
find the calendar event by (e-mail, original start time); if found, delete
it.  Nothing else is touched — in particular the `meetings` row is left as
it was. -/
def cancel_appointment_from_json (args : CancelAppointmentArgs) (s : ServerState) :
    CancelResult × ServerState :=
  match find_event_by_details args.email args.original_start_time s.calendar with
  | none => (.notFound, s)
  | some event_id =>
    match delete_calendar_event event_id s.calendar with
    | .error _ => (.cancelError, s)
    | .ok cal1 => (.canceled, { s with calendar := cal1 })

/-- Body of a `/get-availability` response: HTTP status code, the `status`
field, the user message and the slot list.  The two non-past messages are
abbreviated from the source text. -/
structure AvailabilityResponse where
  statusCode : Nat
  status : String
  message : String
  slots : List Nat
deriving DecidableEq

/-- `/get-availability` (`api/server.py` lines 250-288): reject a requested
day strictly before today with a 400 "unavailable" response *before* any
calendar access; otherwise call `get_available_slots` (the returned `Bool`
records whether that call was made).  An error propagating out of
`get_available_slots` is caught by the generic handler and becomes a 500. -/
def get_voice_availability (now : Nat) (requested_day : Nat)
    (service : Except String Unit) (fetch : Except String (List TimeInterval))
    (startHour endHour slotDuration : Nat) : AvailabilityResponse × Bool :=
  if requested_day < now / 1440 then
    (⟨400, "unavailable", "Sorry, that date is in the past.", []⟩, false)
  else
    match get_available_slots service (some requested_day) fetch startHour endHour slotDuration with
    | .error e => (⟨500, "internal_error", e, []⟩, true)
    | .ok [] => (⟨200, "unavailable", "no open 1-hour slots found", []⟩, true)
    | .ok slots => (⟨200, "available_slots_found", "available times found", slots⟩, true)

/-!
## Reminder scheduler

`send_meeting_reminders` (`tools/scheduler.py` lines 13-103).  The SMS
provider outcome is an oracle `ok : Nat → Bool` (success of one dispatch
for the meeting with that id during this run); `SendRec` logs one dispatch
attempt (`send_sms_reminder` call) with its `reminder_type` and outcome.
-/

/-- One logged SMS dispatch attempt of the reminder job. -/
structure SendRec where
  id : Nat
  rtype : String
  success : Bool
deriving DecidableEq

/-- The Supabase `update({flag: True}).eq("id", i)` write: set the flag (via
`sf`) on every `meetings` row whose id matches. -/
def updFlag (sf : Meeting → Meeting) (i : Nat) (ms : List Meeting) : List Meeting :=
  ms.map (fun m => if m.id == i then sf m else m)

/-- One threshold section of the reminder job: iterate over the selected
rows; with a phone number present, attempt the SMS (logging the attempt)
and set the flag only on success; with no phone number, set the flag
without dispatching. -/
def processSection (ok : Nat → Bool) (sf : Meeting → Meeting) (rt : String) :
    List Meeting → List Meeting → List Meeting × List SendRec
  | [], ms => (ms, [])
  | m :: rest, ms =>
    match m.client_number with
    | some _ =>
      let succ := ok m.id
      let ms1 := if succ then updFlag sf m.id ms else ms
      let r := processSection ok sf rt rest ms1
      (r.1, ⟨m.id, rt, succ⟩ :: r.2)
    | none =>
      processSection ok sf rt rest (updFlag sf m.id ms)

/-- Selection query of the 24-hour section: confirmed, flag unset,
`start_time` in `[now+24h, now+25h)`. -/
def sel24 (now : Nat) (m : Meeting) : Bool :=
  m.status == "confirmed" && !m.reminder_24h_sent
    && decide (now + 1440 ≤ m.start_time) && decide (m.start_time < now + 1500)

/-- Selection query of the morning-of section: confirmed, flag unset,
`start_time` within today (start of day to 23:59). -/
def selMorning (now : Nat) (m : Meeting) : Bool :=
  m.status == "confirmed" && !m.reminder_morning_sent
    && decide (now / 1440 * 1440 ≤ m.start_time)
    && decide (m.start_time ≤ now / 1440 * 1440 + 1439)

/-- Selection query of the 1-hour section: confirmed, flag unset,
`start_time` in `[now+60min, now+90min)`. -/
def sel1h (now : Nat) (m : Meeting) : Bool :=
  m.status == "confirmed" && !m.reminder_1h_sent
    && decide (now + 60 ≤ m.start_time) && decide (m.start_time < now + 90)

/-- Hour of day of a minute timestamp (`now_sast.hour`). -/
def hourOf (now : Nat) : Nat := now % 1440 / 60

/-- Flag write of the 24-hour section. -/
def set24 (m : Meeting) : Meeting := { m with reminder_24h_sent := true }

/-- Flag write of the morning-of section. -/
def setMorning (m : Meeting) : Meeting := { m with reminder_morning_sent := true }

/-- Flag write of the 1-hour section. -/
def set1h (m : Meeting) : Meeting := { m with reminder_1h_sent := true }

/-- `send_meeting_reminders` (`tools/scheduler.py`): the 24-hour section,
then — only while the current hour is in `[8, 9)` — the morning-of section,
then the 1-hour section.  Each section re-queries the table as left by the
previous one. -/
def send_meeting_reminders (now : Nat) (ok : Nat → Bool) (ms : List Meeting) :
    List Meeting × List SendRec :=
  let r1 := processSection ok set24 "24h" (ms.filter (sel24 now)) ms
  let r2 :=
    if 8 ≤ hourOf now ∧ hourOf now < 9 then
      processSection ok setMorning "morning" (r1.1.filter (selMorning now)) r1.1
    else (r1.1, [])
  let r3 := processSection ok set1h "1h" (r2.1.filter (sel1h now)) r2.1
  (r3.1, r1.2 ++ r2.2 ++ r3.2)

/-- Any number of reminder sweeps in sequence, each with its own "now" and
its own provider outcomes; the dispatch logs are concatenated. -/
def runReminderJobs : List (Nat × (Nat → Bool)) → List Meeting → List Meeting × List SendRec
  | [], ms => (ms, [])
  | (now, ok) :: rest, ms =>
    let r := send_meeting_reminders now ok ms
    let r2 := runReminderJobs rest r.1
    (r2.1, r.2 ++ r2.2)

/-- The three reminder thresholds. -/
inductive Threshold where
  | h24
  | morningOf
  | h1
deriving DecidableEq

/-- The `reminder_type` string the job passes to `send_sms_reminder`. -/
def Threshold.rtype : Threshold → String
  | .h24 => "24h"
  | .morningOf => "morning"
  | .h1 => "1h"

/-- The `reminder_*_sent` flag of a threshold. -/
def Threshold.flag : Threshold → Meeting → Bool
  | .h24, m => m.reminder_24h_sent
  | .morningOf, m => m.reminder_morning_sent
  | .h1, m => m.reminder_1h_sent

/-- The flag write of a threshold. -/
def Threshold.setFlag : Threshold → Meeting → Meeting
  | .h24 => set24
  | .morningOf => setMorning
  | .h1 => set1h

/-- Whether a sweep at time `now` selects `m` for a threshold (for the
morning threshold this includes the hour-of-day gate on the whole
section). -/
def Threshold.sel : Threshold → Nat → Meeting → Bool
  | .h24, now, m => sel24 now m
  | .morningOf, now, m =>
    decide (8 ≤ hourOf now ∧ hourOf now < 9) && selMorning now m
  | .h1, now, m => sel1h now m

/-- Successful dispatches logged for meeting `i` at threshold `th`. -/
def countSucc (i : Nat) (th : Threshold) (log : List SendRec) : Nat :=
  (log.filter (fun r => r.id == i && r.rtype == th.rtype && r.success)).length

/-- The reminder flag of the (first) meeting with id `i`. -/
def flagIn (th : Threshold) (i : Nat) (ms : List Meeting) : Option Bool :=
  (ms.find? (fun m => m.id == i)).map th.flag

/-- The log entry one section produces for one selected row: an attempt is
logged only when the row has a phone number. -/
def logEntry (rt : String) (ok : Nat → Bool) (x : Meeting) : Option SendRec :=
  match x.client_number with
  | some _ => some ⟨x.id, rt, ok x.id⟩
  | none => none

/-- The effect of one section on one row, relative to the table as it was
before the sweep: after the accumulated transformation `f`, the section sets
its flag (via `sf`) exactly on the rows it selected (`p`) that have no
phone number or a successful dispatch. -/
def roundFun (sf : Meeting → Meeting) (p : Meeting → Bool) (ok : Nat → Bool)
    (f : Meeting → Meeting) : Meeting → Meeting :=
  fun y => if p y && (!y.client_number.isSome || ok y.id) then sf (f y) else f y

/-- The effect of one whole sweep on one row. -/
def sweepFun (now : Nat) (ok : Nat → Bool) : Meeting → Meeting :=
  let f1 := roundFun set24 (sel24 now) ok (fun y => y)
  let f2 :=
    if 8 ≤ hourOf now ∧ hourOf now < 9 then roundFun setMorning (selMorning now) ok f1
    else f1
  roundFun set1h (sel1h now) ok f2

/-!
## Claims about the booking operations
-/

/-- Claim C10: a deferred-mode booking request with `monthly_budget` strictly
below 8000 returns the disqualification message and leaves the whole state
unchanged — no `meetings` row, no confirmation e-mail, no calendar event. -/
theorem agent_booking_budget_disqualification (args : BookOnboardingCallArgs)
    (s : ServerState) (h : args.monthly_budget < MINIMUM_BUDGET) :
    book_zappies_onboarding_call_from_json args s = (.disqualified, s) := by
  simp [book_zappies_onboarding_call_from_json, h]

/-- Witness for C10 at a concrete request with budget 5000. -/
theorem agent_booking_budget_disqualification_witness :
    (5000 : ℚ) < MINIMUM_BUDGET ∧
    book_zappies_onboarding_call_from_json
        ⟨"Jane Doe", "jane@example.com", "Acme", 3000, "growth", 5000⟩
        ⟨[], 0, [], 0, [], [], []⟩
      = (.disqualified, ⟨[], 0, [], 0, [], [], []⟩) :=
  ⟨by norm_num [MINIMUM_BUDGET],
   agent_booking_budget_disqualification _ _ (by norm_num [MINIMUM_BUDGET])⟩

/-- Claim C9: a `/get-availability` request for a day strictly before today
returns the 400 "unavailable" past-date response and never queries the
calendar. -/
theorem voice_availability_past_date_rejected (now requested_day : Nat)
    (service : Except String Unit) (fetch : Except String (List TimeInterval))
    (sh eh dur : Nat) (h : requested_day < now / 1440) :
    get_voice_availability now requested_day service fetch sh eh dur =
      (⟨400, "unavailable", "Sorry, that date is in the past.", []⟩, false) := by
  simp [get_voice_availability, h]

/-- Witness for C9: day 9 requested when now is in day 10. -/
theorem voice_availability_past_date_rejected_witness :
    (9 : Nat) < 14400 / 1440 ∧
    get_voice_availability 14400 9 (.ok ()) (.ok []) 9 17 60 =
      (⟨400, "unavailable", "Sorry, that date is in the past.", []⟩, false) :=
  ⟨by norm_num, voice_availability_past_date_rejected 14400 9 _ _ 9 17 60 (by norm_num)⟩

/-- Claim C8: immediate-mode booking is atomic on validation failure — when
the past-date or same-day check rejects, `/book-appointment` returns the 400
error and the state is exactly the input state (no `meetings` row, no
`call_history` row, no e-mail, no SMS), because `create_calendar_event`
runs before every write. -/
theorem voice_booking_atomic_on_validation_failure (now : Nat)
    (req : VoiceBookingRequest) (s : ServerState)
    (h : req.start_time < now ∨ req.start_time / 1440 = now / 1440) :
    (book_voice_appointment now req s).2 = s ∧
    ((book_voice_appointment now req s).1
        = .validationFailed "Cannot book an appointment in the past." ∨
      (book_voice_appointment now req s).1
        = .validationFailed
            "Cannot book a same-day appointment. Please book for the next business day or later.") := by
  by_cases h1 : req.start_time < now
  · simp [book_voice_appointment, create_calendar_event, h1]
  · have h2 : req.start_time / 1440 = now / 1440 := h.resolve_left h1
    simp [book_voice_appointment, create_calendar_event, h1, h2]

/-- Witness for C8 at a past start time. -/
theorem voice_booking_atomic_on_validation_failure_witness :
    (100 : Nat) < 1000000 ∧
    (book_voice_appointment 1000000
        ⟨"Sam Lee", "sam@example.com", 100, "growth", 9000, "Acme", none, 0⟩
        ⟨[], 0, [], 0, [], [], []⟩).2
      = ⟨[], 0, [], 0, [], [], []⟩ :=
  ⟨by norm_num,
   (voice_booking_atomic_on_validation_failure 1000000
      ⟨"Sam Lee", "sam@example.com", 100, "growth", 9000, "Acme", none, 0⟩
      ⟨[], 0, [], 0, [], [], []⟩ (Or.inl (by norm_num))).1⟩

/-- Claim C2 counterexample: the deferred-confirmation (agent) mode performs
no start-time validation at all.  With "now" at minute 1000000, the request
with `start_time` 100 (strictly in the past) is still persisted as a
`pending_confirmation` row, and the returned message is the generic
booking-error apology (caused by the NameError in the
conversation-history update), not a past-date rejection — so the claim
that both entry modes reject past dates with the past-date failure and
persist no record is false on the code. -/
theorem deferred_booking_skips_validation_cex :
    (100 : Nat) < 1000000 ∧
    ((book_zappies_onboarding_call_from_json
        ⟨"Jane Doe", "jane@example.com", "Acme", 100, "growth", 9000⟩
        ⟨[], 0, [], 0, [], [], []⟩).2.meetings.map Meeting.status
      = ["pending_confirmation"]) ∧
    (book_zappies_onboarding_call_from_json
        ⟨"Jane Doe", "jane@example.com", "Acme", 100, "growth", 9000⟩
        ⟨[], 0, [], 0, [], [], []⟩).1 = .bookingFailed := by
  refine ⟨by norm_num, ?_, ?_⟩ <;>
    norm_num [book_zappies_onboarding_call_from_json, MINIMUM_BUDGET]

/-- Claim C2 (amended): the immediate (voice) entry mode rejects a start
time strictly before now with the past-date failure and a later-day-check
failure with the same-day failure, persisting nothing; the deferred (agent)
entry mode performs no start-time validation and persists a
`pending_confirmation` row whatever the start time, after which the
NameError escaping the conversation-history update makes it return the
generic booking-error message without sending the confirmation e-mail —
the past/same-day validation runs only later, at confirmation. -/
theorem booking_validation_modes :
    (∀ (now : Nat) (req : VoiceBookingRequest) (s : ServerState),
        req.start_time < now →
        book_voice_appointment now req s =
          (.validationFailed "Cannot book an appointment in the past.", s)) ∧
    (∀ (now : Nat) (req : VoiceBookingRequest) (s : ServerState),
        ¬ req.start_time < now → req.start_time / 1440 = now / 1440 →
        book_voice_appointment now req s =
          (.validationFailed
            "Cannot book a same-day appointment. Please book for the next business day or later.",
           s)) ∧
    (∀ (args : BookOnboardingCallArgs) (s : ServerState),
        ¬ args.monthly_budget < MINIMUM_BUDGET →
        (book_zappies_onboarding_call_from_json args s).1 = .bookingFailed ∧
        (book_zappies_onboarding_call_from_json args s).2.meetings =
          s.meetings ++
            [{ id := s.nextMeetingId, full_name := args.full_name, email := args.email,
               company_name := args.company_name, start_time := args.start_time,
               goal := args.goal, monthly_budget := args.monthly_budget,
               client_number := none, google_calendar_event_id := none,
               status := "pending_confirmation", reminder_24h_sent := false,
               reminder_morning_sent := false, reminder_1h_sent := false }] ∧
        (book_zappies_onboarding_call_from_json args s).2.emails_sent =
          s.emails_sent) := by
  refine ⟨?_, ?_, ?_⟩
  · intro now req s h
    simp [book_voice_appointment, create_calendar_event, h]
  · intro now req s h1 h2
    simp [book_voice_appointment, create_calendar_event, h1, h2]
  · intro args s h
    simp [book_zappies_onboarding_call_from_json, h]

/-- Witness for the amended C2 at concrete requests. -/
theorem booking_validation_modes_witness :
    book_voice_appointment 1000000
        ⟨"Sam Lee", "sam@example.com", 100, "growth", 9000, "Acme", none, 0⟩
        ⟨[], 0, [], 0, [], [], []⟩
      = (.validationFailed "Cannot book an appointment in the past.",
         ⟨[], 0, [], 0, [], [], []⟩) ∧
    book_voice_appointment 500
        ⟨"Sam Lee", "sam@example.com", 600, "growth", 9000, "Acme", none, 0⟩
        ⟨[], 0, [], 0, [], [], []⟩
      = (.validationFailed
          "Cannot book a same-day appointment. Please book for the next business day or later.",
         ⟨[], 0, [], 0, [], [], []⟩) ∧
    (book_zappies_onboarding_call_from_json
        ⟨"Jane Doe", "jane@example.com", "Acme", 100, "growth", 9000⟩
        ⟨[], 0, [], 0, [], [], []⟩).1 = .bookingFailed :=
  ⟨booking_validation_modes.1 1000000 _ _ (by norm_num),
   booking_validation_modes.2.1 500 _ _ (by norm_num) (by norm_num),
   (booking_validation_modes.2.2 _ _ (by norm_num [MINIMUM_BUDGET])).1⟩

/-- Claim C6 counterexample: when the calendar service itself cannot be
constructed (`get_calendar_service` raises because credentials are missing
or malformed), the error propagates out of `get_available_slots` instead of
degrading to an empty slot list. -/
theorem availability_service_error_propagates_cex :
    get_available_slots
        (.error "Google Credentials are not configured on the server.")
        (some 0) (.ok []) 9 17 60
      = .error "Google Credentials are not configured on the server." ∧
    get_available_slots
        (.error "Google Credentials are not configured on the server.")
        (some 0) (.ok []) 9 17 60
      ≠ .ok [] := by
  exact ⟨rfl, by simp [get_available_slots]⟩

/-- Claim C6 (amended): a failure of the events fetch (the `events().list`
call) degrades to an empty slot list, as does an unparseable date; but a
failure to construct the calendar service propagates as an error. -/
theorem availability_fetch_error_empty :
    (∀ (day sh eh dur : Nat) (msg : String),
        get_available_slots (.ok ()) (some day) (.error msg) sh eh dur = .ok []) ∧
    (∀ (sh eh dur : Nat) (fetch : Except String (List TimeInterval)),
        get_available_slots (.ok ()) none fetch sh eh dur = .ok []) ∧
    (∀ (e : String) (date : Option Nat) (fetch : Except String (List TimeInterval))
        (sh eh dur : Nat),
        get_available_slots (.error e) date fetch sh eh dur = .error e) :=
  ⟨fun _ _ _ _ _ => rfl, fun _ _ _ _ => rfl, fun _ _ _ _ _ _ => rfl⟩

/-- Claim C5 counterexample: a successful cancellation deletes the calendar
event but leaves the stored `meetings` row untouched — its status stays
`confirmed`, it is never marked cancelled. -/
theorem cancel_leaves_booking_status_cex :
    (cancel_appointment_from_json ⟨"a@b.c", 1000⟩
        ⟨[⟨5, 1000, 1060, "a@b.c", "s", "d"⟩], 6,
         [⟨1, "Jane", "a@b.c", "Acme", 1000, "g", 9000, none, some 5, "confirmed",
           false, false, false⟩], 2, [], [], []⟩).1 = .canceled ∧
    (cancel_appointment_from_json ⟨"a@b.c", 1000⟩
        ⟨[⟨5, 1000, 1060, "a@b.c", "s", "d"⟩], 6,
         [⟨1, "Jane", "a@b.c", "Acme", 1000, "g", 9000, none, some 5, "confirmed",
           false, false, false⟩], 2, [], [], []⟩).2.calendar = [] ∧
    (cancel_appointment_from_json ⟨"a@b.c", 1000⟩
        ⟨[⟨5, 1000, 1060, "a@b.c", "s", "d"⟩], 6,
         [⟨1, "Jane", "a@b.c", "Acme", 1000, "g", 9000, none, some 5, "confirmed",
           false, false, false⟩], 2, [], [], []⟩).2.meetings.map Meeting.status
      = ["confirmed"] := by
  refine ⟨?_, ?_, ?_⟩ <;>
    simp [cancel_appointment_from_json, find_event_by_details, delete_calendar_event]

/-- Claim C5 (amended): cancellation deletes the matched calendar event
(`delete_calendar_event` treats an already-deleted event as success, never
failing on a missing id), and leaves the stored `meetings` rows exactly as
they were — no status is set to cancelled. -/
theorem cancel_deletes_event_meetings_unchanged :
    (∀ (event_id : Nat) (cal : List CalEvent),
        cal.any (fun ev => ev.id == event_id) = false →
        delete_calendar_event event_id cal = .ok cal) ∧
    (∀ (args : CancelAppointmentArgs) (s : ServerState) (event_id : Nat),
        find_event_by_details args.email args.original_start_time s.calendar
          = some event_id →
        (cancel_appointment_from_json args s).1 = .canceled ∧
        (cancel_appointment_from_json args s).2.calendar
          = s.calendar.filter (fun ev => !(ev.id == event_id)) ∧
        (cancel_appointment_from_json args s).2.meetings = s.meetings) := by
  constructor
  · intro event_id cal h
    simp [delete_calendar_event, h]
  · intro args s event_id h
    have hany : s.calendar.any (fun ev => ev.id == event_id) = true := by
      unfold find_event_by_details at h
      rw [Option.map_eq_some'] at h
      obtain ⟨ev, hhead, hid⟩ := h
      have hmem1 : ev ∈ s.calendar.filter (fun ev =>
          ev.lead_email == args.email
            && decide (ev.start < args.original_start_time + 1)
            && decide (args.original_start_time < ev.stop)) :=
        List.mem_of_mem_head? (Option.mem_def.mpr hhead)
      exact List.any_eq_true.mpr
        ⟨ev, (List.mem_filter.mp hmem1).1, by simp [hid]⟩
    refine ⟨?_, ?_, ?_⟩ <;>
      simp [cancel_appointment_from_json, h, delete_calendar_event, hany]

/-- Witness for the amended C5 at a concrete state. -/
theorem cancel_deletes_event_meetings_unchanged_witness :
    find_event_by_details "a@b.c" 1000 [⟨5, 1000, 1060, "a@b.c", "s", "d"⟩]
      = some 5 ∧
    (cancel_appointment_from_json ⟨"a@b.c", 1000⟩
        ⟨[⟨5, 1000, 1060, "a@b.c", "s", "d"⟩], 6,
         [⟨1, "Jane", "a@b.c", "Acme", 1000, "g", 9000, none, some 5, "confirmed",
           false, false, false⟩], 2, [], [], []⟩).2.meetings
      = [⟨1, "Jane", "a@b.c", "Acme", 1000, "g", 9000, none, some 5, "confirmed",
          false, false, false⟩] :=
  ⟨by decide,
   (cancel_deletes_event_meetings_unchanged.2 ⟨"a@b.c", 1000⟩ _ 5 (by decide)).2.2⟩

/-- `List.find?` commutes with mapping a function that does not change the
predicate. -/
theorem find?_map_pred_pres {α : Type} (f : α → α) (p : α → Bool)
    (hp : ∀ a, p (f a) = p a) (l : List α) :
    (l.map f).find? p = (l.find? p).map f := by
  rw [List.find?_map]
  have hfp : p ∘ f = p := funext hp
  rw [hfp]

/-- The `/confirm-meeting` no-op branch: an already-confirmed meeting is
reported as such and nothing changes. -/
theorem confirm_meeting_already (now mid : Nat) (s : ServerState) (m : Meeting)
    (hfind : s.meetings.find? (fun x => x.id == mid) = some m)
    (hstat : m.status = "confirmed") :
    confirm_meeting now mid s = (.alreadyConfirmed, s) := by
  simp [confirm_meeting, hfind, hstat]

/-- Claim C3 counterexample: a `pending_confirmation` booking whose stored
start time is in the past.  `confirm_meeting` on it does not create a
calendar event and does not flip the status (the claim says the
non-confirmed branch always creates exactly one event and confirms). -/
theorem confirm_meeting_unconditional_cex :
    confirm_meeting 1000000 1
        ⟨[], 0,
         [⟨1, "Jane", "a@b.c", "Acme", 100, "g", 9000, none, none,
           "pending_confirmation", false, false, false⟩], 2, [], [], []⟩
      = (.confirmFailed,
         ⟨[], 0,
          [⟨1, "Jane", "a@b.c", "Acme", 100, "g", 9000, none, none,
            "pending_confirmation", false, false, false⟩], 2, [], [], []⟩) := by
  decide

/-- Claim C3 (amended): confirming is idempotent.  An already-confirmed
booking is a no-op.  A not-yet-confirmed booking whose stored start time
passes the past / same-day validation gets exactly one new calendar event
and a `confirmed` status, and a second invocation is the already-confirmed
no-op — two calls in sequence produce one event and one confirmed status.
If the validation fails (e.g. a pending booking whose start time has
passed), no event is created and the record is unchanged. -/
theorem confirm_meeting_idempotent :
    (∀ (now mid : Nat) (s : ServerState) (m : Meeting),
        s.meetings.find? (fun x => x.id == mid) = some m →
        m.status = "confirmed" →
        confirm_meeting now mid s = (.alreadyConfirmed, s)) ∧
    (∀ (now mid : Nat) (s : ServerState) (m : Meeting),
        s.meetings.find? (fun x => x.id == mid) = some m →
        m.status ≠ "confirmed" →
        ¬ m.start_time < now →
        m.start_time / 1440 ≠ now / 1440 →
        (confirm_meeting now mid s).1 = .confirmed ∧
        (confirm_meeting now mid s).2.calendar.length = s.calendar.length + 1 ∧
        confirm_meeting now mid (confirm_meeting now mid s).2
          = (.alreadyConfirmed, (confirm_meeting now mid s).2)) := by
  refine ⟨confirm_meeting_already, ?_⟩
  intro now mid s m hfind hstat hpast hday
  have hidm : (m.id == mid) = true := by
    have h0 := List.find?_some hfind
    simpa using h0
  refine ⟨?_, ?_, ?_⟩
  · simp [confirm_meeting, hfind, hstat, create_calendar_event, hpast, hday]
  · cases hph : m.client_number <;>
      simp [confirm_meeting, hfind, hstat, create_calendar_event, hpast, hday, hph]
  · have hmeet : (confirm_meeting now mid s).2.meetings
        = s.meetings.map (fun x =>
            if x.id == mid then
              { x with status := "confirmed",
                       google_calendar_event_id := some s.nextEventId }
            else x) := by
      cases hph : m.client_number <;>
        simp [confirm_meeting, hfind, hstat, create_calendar_event, hpast, hday, hph]
    have hpres : ∀ x : Meeting,
        (((fun x : Meeting =>
            if x.id == mid then
              { x with status := "confirmed",
                       google_calendar_event_id := some s.nextEventId }
            else x) x).id == mid) = (x.id == mid) := by
      intro x
      by_cases hx : (x.id == mid) = true <;> simp [hx]
    have hfind2 : (confirm_meeting now mid s).2.meetings.find? (fun x => x.id == mid)
        = some ({ m with status := "confirmed",
                         google_calendar_event_id := some s.nextEventId }) := by
      rw [hmeet, find?_map_pred_pres _ _ hpres, hfind]
      have hidm2 : m.id = mid := by simpa using hidm
      simp [hidm2]
    exact confirm_meeting_already now mid _ _ hfind2 rfl

/-- Witness for the amended C3: a pending booking for tomorrow, confirmed
twice. -/
theorem confirm_meeting_idempotent_witness :
    (confirm_meeting 500 1
        ⟨[], 0,
         [⟨1, "Jane", "a@b.c", "Acme", 2000, "g", 9000, none, none,
           "pending_confirmation", false, false, false⟩], 2, [], [], []⟩).1
      = .confirmed ∧
    confirm_meeting 500 1
        (confirm_meeting 500 1
          ⟨[], 0,
           [⟨1, "Jane", "a@b.c", "Acme", 2000, "g", 9000, none, none,
             "pending_confirmation", false, false, false⟩], 2, [], [], []⟩).2
      = (.alreadyConfirmed,
         (confirm_meeting 500 1
           ⟨[], 0,
            [⟨1, "Jane", "a@b.c", "Acme", 2000, "g", 9000, none, none,
              "pending_confirmation", false, false, false⟩], 2, [], [], []⟩).2) :=
  ⟨(confirm_meeting_idempotent.2 500 1 _
      ⟨1, "Jane", "a@b.c", "Acme", 2000, "g", 9000, none, none,
        "pending_confirmation", false, false, false⟩
      (by decide) (by decide) (by decide) (by decide)).1,
   (confirm_meeting_idempotent.2 500 1 _
      ⟨1, "Jane", "a@b.c", "Acme", 2000, "g", 9000, none, none,
        "pending_confirmation", false, false, false⟩
      (by decide) (by decide) (by decide) (by decide)).2.2⟩

/-!
## Claims about the availability calculator
-/

/-- Soundness of the slot loop: a returned candidate strictly overlaps no
busy event. -/
theorem slotLoop_not_busy {dur whEnd : Nat} {events : List TimeInterval} :
    ∀ cur t, t ∈ slotLoop dur whEnd events cur →
      ∀ ev ∈ events, ¬(t < ev.stop ∧ t + dur > ev.start) := by
  suffices H : ∀ n cur, whEnd - cur ≤ n → ∀ t, t ∈ slotLoop dur whEnd events cur →
      ∀ ev ∈ events, ¬(t < ev.stop ∧ t + dur > ev.start) from
    fun cur => H (whEnd - cur) cur le_rfl
  intro n
  induction n with
  | zero =>
    intro cur hle t ht
    rw [slotLoop, dif_neg (by omega)] at ht
    simp at ht
  | succ n ih =>
    intro cur hle t ht
    rw [slotLoop] at ht
    by_cases h1 : cur < whEnd
    · rw [dif_pos h1] at ht
      by_cases h2 : cur + dur > whEnd
      · rw [if_pos h2] at ht
        simp at ht
      · rw [if_neg h2] at ht
        by_cases hb : events.any (fun ev =>
            decide (cur < ev.stop) && decide (cur + dur > ev.start)) = true
        · rw [if_pos hb] at ht
          exact ih (cur + 60) (by omega) t ht
        · rw [if_neg hb] at ht
          rcases List.mem_cons.mp ht with rfl | ht2
          · intro ev hev hover
            have hb2 : events.any (fun ev =>
                decide (t < ev.stop) && decide (t + dur > ev.start)) = false := by
              revert hb
              cases events.any (fun ev =>
                decide (t < ev.stop) && decide (t + dur > ev.start)) <;> simp
            have hx := List.any_eq_false.mp hb2 ev hev
            simp only [Bool.and_eq_true, decide_eq_true_eq, not_and] at hx
            exact hx hover.1 hover.2
          · exact ih (cur + 60) (by omega) t ht2
    · rw [dif_neg h1] at ht
      simp at ht

/-- Completeness of the slot loop: a candidate on the 60-minute grid that
fits in the window and strictly overlaps no busy event is returned. -/
theorem slotLoop_mem_of_free {dur whEnd : Nat} {events : List TimeInterval} :
    ∀ (k cur : Nat),
      (∀ ev ∈ events, ¬(cur + 60 * k < ev.stop ∧ cur + 60 * k + dur > ev.start)) →
      cur + 60 * k + dur ≤ whEnd → cur + 60 * k < whEnd →
      cur + 60 * k ∈ slotLoop dur whEnd events cur := by
  intro k
  induction k with
  | zero =>
    intro cur hfree hend hlt
    simp only [Nat.mul_zero, Nat.add_zero] at *
    rw [slotLoop, dif_pos hlt, if_neg (by omega)]
    have hb : events.any (fun ev =>
        decide (cur < ev.stop) && decide (cur + dur > ev.start)) = false := by
      apply List.any_eq_false.mpr
      intro ev hev
      have hnf := hfree ev hev
      simp only [Bool.and_eq_true, decide_eq_true_eq, not_and]
      intro hlt1 hgt1
      exact hnf ⟨hlt1, hgt1⟩
    rw [if_neg (by simp [hb])]
    exact List.mem_cons_self _ _
  | succ k ih =>
    intro cur hfree hend hlt
    have harr : cur + 60 * (k + 1) = cur + 60 + 60 * k := by ring
    rw [slotLoop, dif_pos (by omega), if_neg (by omega)]
    have hmem : cur + 60 + 60 * k ∈ slotLoop dur whEnd events (cur + 60) := by
      apply ih
      · intro ev hev
        have := hfree ev hev
        rw [harr] at this
        exact this
      · omega
      · omega
    by_cases hb : events.any (fun ev =>
        decide (cur < ev.stop) && decide (cur + dur > ev.start)) = true
    · rw [if_pos hb, harr]
      exact hmem
    · rw [if_neg hb, harr]
      exact List.mem_cons_of_mem _ hmem

/-- Claim C1: a slot `[t, t+d)` is never returned by `get_available_slots`
when some busy interval `[bs, be)` satisfies `t < be` and `t + d > bs`; and
a grid candidate that merely touches busy intervals at endpoints (no strict
overlap with any of them) is not excluded. -/
theorem available_slots_never_overlap_busy
    (day startHour endHour dur : Nat) (events : List TimeInterval) (slots : List Nat)
    (h : get_available_slots (.ok ()) (some day) (.ok events) startHour endHour dur
          = .ok slots) :
    (∀ t ∈ slots, ∀ ev ∈ events, ¬(t < ev.stop ∧ t + dur > ev.start)) ∧
    (∀ k : Nat,
        (∀ ev ∈ events,
            ¬(day * 1440 + startHour * 60 + 60 * k < ev.stop ∧
              day * 1440 + startHour * 60 + 60 * k + dur > ev.start)) →
        day * 1440 + startHour * 60 + 60 * k + dur ≤ day * 1440 + endHour * 60 →
        day * 1440 + startHour * 60 + 60 * k < day * 1440 + endHour * 60 →
        day * 1440 + startHour * 60 + 60 * k ∈ slots) := by
  have hs : slotLoop dur (day * 1440 + endHour * 60) events (day * 1440 + startHour * 60)
      = slots := by
    simpa [get_available_slots] using h
  constructor
  · intro t ht ev hev
    rw [← hs] at ht
    exact slotLoop_not_busy _ t ht ev hev
  · intro k hfree hend hlt
    rw [← hs]
    exact slotLoop_mem_of_free k _ hfree hend hlt

/-- Witness for C1: busy `[600, 660)` touches the candidate `[540, 600)` at
its endpoint; the candidate is returned. -/
theorem available_slots_never_overlap_busy_witness :
    get_available_slots (.ok ()) (some 0) (.ok [⟨600, 660⟩]) 9 11 60 = .ok [540] ∧
    0 * 1440 + 9 * 60 + 60 * 0 ∈ [(540 : Nat)] := by
  have h : get_available_slots (.ok ()) (some 0) (.ok [⟨600, 660⟩]) 9 11 60
      = .ok [540] := by
    simp [get_available_slots, slotLoop]
  refine ⟨h, (available_slots_never_overlap_busy 0 9 11 60 _ _ h).2 0 ?_
    (by norm_num) (by norm_num)⟩
  intro ev hev
  rcases List.mem_singleton.mp hev with rfl
  norm_num

/-- When no busy event intersects the window `[whStart, whEnd)`, the slot
loop from any grid point `cur ≥ whStart` returns exactly the 60-minute grid
points whose slot still fits. -/
theorem slotLoop_no_busy_eq {dur whEnd whStart : Nat} {events : List TimeInterval}
    (hdur : 0 < dur)
    (hfree : ∀ ev ∈ events, ¬(ev.start < whEnd ∧ whStart < ev.stop)) :
    ∀ n cur, whEnd - cur ≤ n → whStart ≤ cur →
      slotLoop dur whEnd events cur =
        if cur + dur ≤ whEnd then
          (List.range ((whEnd - dur - cur) / 60 + 1)).map (fun j => cur + 60 * j)
        else [] := by
  intro n
  induction n with
  | zero =>
    intro cur hle hcur
    rw [slotLoop, dif_neg (by omega), if_neg (by omega)]
  | succ n ih =>
    intro cur hle hcur
    by_cases hc : cur + dur ≤ whEnd
    · rw [if_pos hc]
      have h1 : cur < whEnd := by omega
      rw [slotLoop, dif_pos h1, if_neg (by omega)]
      have hb : events.any (fun ev =>
          decide (cur < ev.stop) && decide (cur + dur > ev.start)) = false := by
        apply List.any_eq_false.mpr
        intro ev hev
        have hnf := hfree ev hev
        simp only [Bool.and_eq_true, decide_eq_true_eq, not_and]
        intro hlt1 hgt1
        exact absurd ⟨by omega, by omega⟩ hnf
      rw [if_neg (by simp [hb])]
      rw [ih (cur + 60) (by omega) (by omega)]
      by_cases hc2 : cur + 60 + dur ≤ whEnd
      · rw [if_pos hc2]
        have hdiv : (whEnd - dur - cur) / 60 = (whEnd - dur - (cur + 60)) / 60 + 1 := by
          have e1 : whEnd - dur - cur = whEnd - dur - (cur + 60) + 60 := by omega
          rw [e1, Nat.add_div_right _ (by norm_num)]
        rw [hdiv, List.range_succ_eq_map ((whEnd - dur - (cur + 60)) / 60 + 1),
          List.map_cons, List.map_map]
        congr 1
        apply List.map_congr_left
        intro j hj
        simp only [Function.comp_apply, Nat.succ_eq_add_one]
        omega
      · rw [if_neg hc2]
        have h0 : (whEnd - dur - cur) / 60 = 0 := Nat.div_eq_of_lt (by omega)
        rw [h0]
        simp [List.range_succ]
    · rw [if_neg hc]
      rw [slotLoop]
      by_cases h1 : cur < whEnd
      · rw [dif_pos h1, if_pos (by omega)]
      · rw [dif_neg h1]

/-- Claim C7: with a window strictly wider than one slot duration and no
busy interval intersecting the window, `get_available_slots` returns
exactly `(windowMinutes - durationMinutes) / 60 + 1` slots, stepping in
fixed 60-minute increments from the window start (independently of the slot
duration), each slot ending at or before the window end. -/
theorem available_slots_count_no_busy
    (day startHour endHour dur : Nat) (events : List TimeInterval)
    (hdur : 0 < dur)
    (hwide : startHour * 60 + dur < endHour * 60)
    (hfree : ∀ ev ∈ events,
        ¬(ev.start < day * 1440 + endHour * 60 ∧
          day * 1440 + startHour * 60 < ev.stop)) :
    get_available_slots (.ok ()) (some day) (.ok events) startHour endHour dur
      = .ok ((List.range ((endHour * 60 - startHour * 60 - dur) / 60 + 1)).map
          (fun j => day * 1440 + startHour * 60 + 60 * j)) ∧
    ((List.range ((endHour * 60 - startHour * 60 - dur) / 60 + 1)).map
        (fun j => day * 1440 + startHour * 60 + 60 * j)).length
      = (endHour * 60 - startHour * 60 - dur) / 60 + 1 ∧
    (∀ t ∈ (List.range ((endHour * 60 - startHour * 60 - dur) / 60 + 1)).map
        (fun j => day * 1440 + startHour * 60 + 60 * j),
      t + dur ≤ day * 1440 + endHour * 60) := by
  refine ⟨?_, by simp, ?_⟩
  · simp only [get_available_slots]
    rw [slotLoop_no_busy_eq hdur hfree
        (day * 1440 + endHour * 60 - (day * 1440 + startHour * 60))
        (day * 1440 + startHour * 60) le_rfl le_rfl]
    rw [if_pos (by omega)]
    have e1 : day * 1440 + endHour * 60 - dur - (day * 1440 + startHour * 60)
        = endHour * 60 - startHour * 60 - dur := by omega
    rw [e1]
  · intro t ht
    simp only [List.mem_map, List.mem_range] at ht
    obtain ⟨j, hj, rfl⟩ := ht
    have hj2 : 60 * j ≤ endHour * 60 - startHour * 60 - dur := by
      have hj3 : j ≤ (endHour * 60 - startHour * 60 - dur) / 60 := by omega
      calc 60 * j ≤ 60 * ((endHour * 60 - startHour * 60 - dur) / 60) :=
            Nat.mul_le_mul_left 60 hj3
        _ ≤ endHour * 60 - startHour * 60 - dur := Nat.mul_div_le _ 60
    omega

/-- Witness for C7: the 09:00-17:00 window with no busy events yields the
eight hourly slots. -/
theorem available_slots_count_no_busy_witness :
    get_available_slots (.ok ()) (some 0) (.ok ([] : List TimeInterval)) 9 17 60
      = .ok [540, 600, 660, 720, 780, 840, 900, 960] := by
  have h := (available_slots_count_no_busy 0 9 17 60 [] (by norm_num) (by norm_num)
    (by simp)).1
  rw [h]
  norm_num [List.range_succ]

/-!
## Claims about the reminder scheduler
-/

/-- `List.any` only depends on the pointwise values of the predicate. -/
theorem any_congr' {α : Type} (l : List α) (g1 g2 : α → Bool)
    (h : ∀ x ∈ l, g1 x = g2 x) : l.any g1 = l.any g2 := by
  induction l with
  | nil => rfl
  | cons x rest ih =>
    simp only [List.any_cons]
    rw [h x (List.mem_cons_self x rest), ih (fun y hy => h y (List.mem_cons_of_mem x hy))]

/-- The dispatch log of one section: one entry per selected row that has a
phone number, recording the oracle outcome; independent of the table
state. -/
theorem processSection_log (ok : Nat → Bool) (sf : Meeting → Meeting) (rt : String) :
    ∀ (sel ms : List Meeting),
      (processSection ok sf rt sel ms).2 = sel.filterMap (logEntry rt ok) := by
  intro sel
  induction sel with
  | nil => intro ms; simp [processSection]
  | cons x rest ih =>
    intro ms
    cases hx : x.client_number with
    | none => simp [processSection, logEntry, hx, ih]
    | some v => simp [processSection, logEntry, hx, ih]

/-- The table state after one section: the flag write applied exactly to
the rows whose id was selected with either no phone number or a successful
dispatch. -/
theorem processSection_meetings (ok : Nat → Bool) (sf : Meeting → Meeting)
    (rt : String) (hid : ∀ m, (sf m).id = m.id) (hidem : ∀ m, sf (sf m) = sf m) :
    ∀ (sel ms : List Meeting),
      (processSection ok sf rt sel ms).1
        = ms.map (fun m =>
            if sel.any (fun x => x.id == m.id && (!x.client_number.isSome || ok x.id))
            then sf m else m) := by
  intro sel
  induction sel with
  | nil =>
    intro ms
    simp [processSection]
  | cons x rest ih =>
    intro ms
    have step : ∀ ms' : List Meeting,
        (updFlag sf x.id ms').map (fun m =>
            if rest.any (fun y => y.id == m.id && (!y.client_number.isSome || ok y.id))
            then sf m else m)
          = ms'.map (fun m =>
              if (x.id == m.id) ||
                  rest.any (fun y => y.id == m.id && (!y.client_number.isSome || ok y.id))
              then sf m else m) := by
      intro ms'
      rw [updFlag, List.map_map]
      apply List.map_congr_left
      intro m hm
      simp only [Function.comp_apply]
      have hany : (rest.any (fun y => y.id == (sf m).id
          && (!y.client_number.isSome || ok y.id)))
          = rest.any (fun y => y.id == m.id && (!y.client_number.isSome || ok y.id)) :=
        any_congr' _ _ _ (fun y _ => by rw [hid])
      by_cases hmi : m.id = x.id
      · have h1 : (m.id == x.id) = true := by simp [hmi]
        have h2 : (x.id == m.id) = true := by simp [hmi]
        rw [if_pos h1, hany, h2, Bool.true_or, if_pos rfl]
        cases hr : rest.any (fun y => y.id == m.id
            && (!y.client_number.isSome || ok y.id)) with
        | true => rw [if_pos rfl, hidem]
        | false => rw [if_neg Bool.false_ne_true]
      · have h1 : ¬ ((m.id == x.id) = true) := by simp [hmi]
        have h2 : (x.id == m.id) = false := by
          simp only [beq_eq_false_iff_ne, ne_eq]
          exact fun h => hmi h.symm
        rw [if_neg h1, h2, Bool.false_or]
    cases hx : x.client_number with
    | none =>
      have hunf : (processSection ok sf rt (x :: rest) ms).1
          = (processSection ok sf rt rest (updFlag sf x.id ms)).1 := by
        simp [processSection, hx]
      rw [hunf, ih, step]
      apply List.map_congr_left
      intro m hm
      simp only [List.any_cons, hx, Option.isSome_none, Bool.not_false, Bool.true_or,
        Bool.and_true]
    | some v =>
      cases hok : ok x.id with
      | true =>
        have hunf : (processSection ok sf rt (x :: rest) ms).1
            = (processSection ok sf rt rest (updFlag sf x.id ms)).1 := by
          simp [processSection, hx, hok]
        rw [hunf, ih, step]
        apply List.map_congr_left
        intro m hm
        simp only [List.any_cons, hx, Option.isSome_some, Bool.not_true, Bool.false_or,
          hok, Bool.and_true]
      | false =>
        have hunf : (processSection ok sf rt (x :: rest) ms).1
            = (processSection ok sf rt rest ms).1 := by
          simp [processSection, hx, hok]
        rw [hunf, ih]
        apply List.map_congr_left
        intro m hm
        simp only [List.any_cons, hx, Option.isSome_some, Bool.not_true, Bool.false_or,
          hok, Bool.and_false]

/-- In a table with unique ids, `find?` by a member's id returns that
member. -/
theorem find?_self_of_nodup (ms : List Meeting)
    (hnd : (ms.map (fun mm => mm.id)).Nodup) (m : Meeting) (hm : m ∈ ms) :
    ms.find? (fun x => x.id == m.id) = some m := by
  cases hf : ms.find? (fun x => x.id == m.id) with
  | none =>
    exfalso
    have := List.find?_eq_none.mp hf m hm
    simp at this
  | some x =>
    have hx1 := List.find?_some hf
    have hx2 := List.mem_of_find?_eq_some hf
    have hxe : x = m := List.inj_on_of_nodup_map hnd hx2 hm (by simpa using hx1)
    rw [hxe]

/-- In a table with unique ids, whether the filtered selection contains a
row with a member's id (and a further property of that row) reduces to a
test on the member itself. -/
theorem any_filter_cond (p q : Meeting → Bool) (ms : List Meeting)
    (hnd : (ms.map (fun mm => mm.id)).Nodup) (m : Meeting) (hm : m ∈ ms)
    (i : Nat) (hi : m.id = i) :
    ((ms.filter p).any (fun x => x.id == i && q x)) = (p m && q m) := by
  subst hi
  cases hpm : (p m && q m) with
  | true =>
    apply List.any_eq_true.mpr
    rw [Bool.and_eq_true] at hpm
    exact ⟨m, List.mem_filter.mpr ⟨hm, hpm.1⟩, by simp [hpm.2]⟩
  | false =>
    apply List.any_eq_false.mpr
    intro x hxf
    obtain ⟨hxm, hpx⟩ := List.mem_filter.mp hxf
    by_cases hxi : x.id = m.id
    · have hxeq : x = m := List.inj_on_of_nodup_map hnd hxm hm hxi
      subst hxeq
      rw [hpx] at hpm
      simp only [Bool.true_and] at hpm
      simp [hpm]
    · simp [hxi]

/-- A round step leaves any field its setter leaves. -/
theorem roundFun_acc {β : Type} (acc : Meeting → β) (sf : Meeting → Meeting)
    (p : Meeting → Bool) (ok : Nat → Bool) (f : Meeting → Meeting)
    (hacc : ∀ z, acc (sf z) = acc z) (y : Meeting) :
    acc (roundFun sf p ok f y) = acc (f y) := by
  unfold roundFun
  by_cases h : (p y && (!y.client_number.isSome || ok y.id)) = true
  · rw [if_pos h, hacc]
  · rw [if_neg h]

/-- A round step sets the flag its setter sets exactly on selection with
no phone number or a successful dispatch. -/
theorem roundFun_flag (acc : Meeting → Bool) (sf : Meeting → Meeting)
    (p : Meeting → Bool) (ok : Nat → Bool) (f : Meeting → Meeting)
    (hset : ∀ z, acc (sf z) = true) (y : Meeting) :
    acc (roundFun sf p ok f y)
      = (acc (f y) || (p y && (!y.client_number.isSome || ok y.id))) := by
  unfold roundFun
  by_cases h : (p y && (!y.client_number.isSome || ok y.id)) = true
  · rw [if_pos h, hset, h, Bool.or_true]
  · rw [if_neg h]
    have h' : (p y && (!y.client_number.isSome || ok y.id)) = false := by
      revert h
      cases (p y && (!y.client_number.isSome || ok y.id)) <;> simp
    rw [h', Bool.or_false]

/-- One section of the sweep, run on a table that is the image of the
original table under an accumulated id/phone/selection-preserving
transformation `f`: the resulting table is the image under the extended
transformation, and the dispatch log is determined by the original rows. -/
theorem section_round
    (sf : Meeting → Meeting) (p : Meeting → Bool) (rt : String) (ok : Nat → Bool)
    (hsfid : ∀ y, (sf y).id = y.id) (hsfidem : ∀ y, sf (sf y) = sf y)
    (ms0 : List Meeting) (hnd : (ms0.map (fun mm => mm.id)).Nodup)
    (f : Meeting → Meeting)
    (hfid : ∀ y, (f y).id = y.id)
    (hfph : ∀ y, (f y).client_number = y.client_number)
    (hfp : ∀ y, p (f y) = p y)
    (msc : List Meeting) (hmsc : msc = ms0.map f) :
    (processSection ok sf rt (msc.filter p) msc).1 = ms0.map (roundFun sf p ok f) ∧
    (processSection ok sf rt (msc.filter p) msc).2
      = (ms0.filter p).filterMap (logEntry rt ok) := by
  subst hmsc
  have hfilter : (ms0.map f).filter p = (ms0.filter p).map f := by
    rw [List.filter_map]
    congr 1
    exact List.filter_congr (fun x _ => by simp only [Function.comp_apply, hfp])
  constructor
  · rw [processSection_meetings ok sf rt hsfid hsfidem, List.map_map]
    apply List.map_congr_left
    intro y hy
    simp only [Function.comp_apply]
    rw [hfid y, hfilter, List.any_map]
    have hcongr : (((ms0.filter p)).any ((fun x => x.id == y.id
        && (!x.client_number.isSome || ok x.id)) ∘ f))
        = (ms0.filter p).any (fun x => x.id == y.id
            && (!x.client_number.isSome || ok x.id)) :=
      any_congr' _ _ _ (fun x _ => by simp only [Function.comp_apply, hfid, hfph])
    rw [hcongr, any_filter_cond p _ ms0 hnd y hy y.id rfl]
    rfl
  · rw [processSection_log, hfilter, List.filterMap_map]
    apply List.filterMap_congr
    intro x hx
    simp only [Function.comp_apply, logEntry, hfph, hfid]

/-- A sweep never changes a row's id. -/
theorem sweepFun_id (now : Nat) (ok : Nat → Bool) (y : Meeting) :
    (sweepFun now ok y).id = y.id := by
  unfold sweepFun
  by_cases hg : 8 ≤ hourOf now ∧ hourOf now < 9
  · rw [if_pos hg,
      roundFun_acc Meeting.id set1h _ _ _ (fun z => rfl),
      roundFun_acc Meeting.id setMorning _ _ _ (fun z => rfl),
      roundFun_acc Meeting.id set24 _ _ _ (fun z => rfl)]
  · rw [if_neg hg,
      roundFun_acc Meeting.id set1h _ _ _ (fun z => rfl),
      roundFun_acc Meeting.id set24 _ _ _ (fun z => rfl)]

/-- Effect of one sweep on the 24-hour flag of one row. -/
theorem sweepFun_flag24 (now : Nat) (ok : Nat → Bool) (y : Meeting) :
    (sweepFun now ok y).reminder_24h_sent
      = (y.reminder_24h_sent
          || (sel24 now y && (!y.client_number.isSome || ok y.id))) := by
  unfold sweepFun
  by_cases hg : 8 ≤ hourOf now ∧ hourOf now < 9
  · rw [if_pos hg,
      roundFun_acc Meeting.reminder_24h_sent set1h _ _ _ (fun z => rfl),
      roundFun_acc Meeting.reminder_24h_sent setMorning _ _ _ (fun z => rfl),
      roundFun_flag Meeting.reminder_24h_sent set24 _ _ _ (fun z => rfl)]
  · rw [if_neg hg,
      roundFun_acc Meeting.reminder_24h_sent set1h _ _ _ (fun z => rfl),
      roundFun_flag Meeting.reminder_24h_sent set24 _ _ _ (fun z => rfl)]

/-- Effect of one sweep on the morning-of flag of one row. -/
theorem sweepFun_flagM (now : Nat) (ok : Nat → Bool) (y : Meeting) :
    (sweepFun now ok y).reminder_morning_sent
      = (y.reminder_morning_sent
          || ((decide (8 ≤ hourOf now ∧ hourOf now < 9) && selMorning now y)
              && (!y.client_number.isSome || ok y.id))) := by
  unfold sweepFun
  by_cases hg : 8 ≤ hourOf now ∧ hourOf now < 9
  · rw [if_pos hg,
      roundFun_acc Meeting.reminder_morning_sent set1h _ _ _ (fun z => rfl),
      roundFun_flag Meeting.reminder_morning_sent setMorning _ _ _ (fun z => rfl),
      roundFun_acc Meeting.reminder_morning_sent set24 _ _ _ (fun z => rfl),
      decide_eq_true hg, Bool.true_and]
  · rw [if_neg hg,
      roundFun_acc Meeting.reminder_morning_sent set1h _ _ _ (fun z => rfl),
      roundFun_acc Meeting.reminder_morning_sent set24 _ _ _ (fun z => rfl),
      decide_eq_false hg, Bool.false_and, Bool.false_and, Bool.or_false]

/-- Effect of one sweep on the 1-hour flag of one row. -/
theorem sweepFun_flag1h (now : Nat) (ok : Nat → Bool) (y : Meeting) :
    (sweepFun now ok y).reminder_1h_sent
      = (y.reminder_1h_sent
          || (sel1h now y && (!y.client_number.isSome || ok y.id))) := by
  unfold sweepFun
  by_cases hg : 8 ≤ hourOf now ∧ hourOf now < 9
  · rw [if_pos hg,
      roundFun_flag Meeting.reminder_1h_sent set1h _ _ _ (fun z => rfl),
      roundFun_acc Meeting.reminder_1h_sent setMorning _ _ _ (fun z => rfl),
      roundFun_acc Meeting.reminder_1h_sent set24 _ _ _ (fun z => rfl)]
  · rw [if_neg hg,
      roundFun_flag Meeting.reminder_1h_sent set1h _ _ _ (fun z => rfl),
      roundFun_acc Meeting.reminder_1h_sent set24 _ _ _ (fun z => rfl)]

/-- Effect of one sweep on any threshold's flag of one row: it is set iff
it was set, or the row was selected for that threshold and had no phone
number or a successful dispatch. -/
theorem sweepFun_flag (th : Threshold) (now : Nat) (ok : Nat → Bool) (y : Meeting) :
    th.flag (sweepFun now ok y)
      = (th.flag y || (th.sel now y && (!y.client_number.isSome || ok y.id))) := by
  cases th with
  | h24 =>
    simp only [Threshold.flag, Threshold.sel]
    exact sweepFun_flag24 now ok y
  | morningOf =>
    simp only [Threshold.flag, Threshold.sel]
    exact sweepFun_flagM now ok y
  | h1 =>
    simp only [Threshold.flag, Threshold.sel]
    exact sweepFun_flag1h now ok y

/-- One sweep, decomposed: the resulting table is the pointwise image of
the input table under `sweepFun`, and the dispatch log is the concatenation
of the three sections' logs, each determined by the input table. -/
theorem sweep_eq (now : Nat) (ok : Nat → Bool) (ms : List Meeting)
    (hnd : (ms.map (fun mm => mm.id)).Nodup) :
    (send_meeting_reminders now ok ms).1 = ms.map (sweepFun now ok) ∧
    (send_meeting_reminders now ok ms).2
      = (ms.filter (sel24 now)).filterMap (logEntry "24h" ok)
        ++ (if 8 ≤ hourOf now ∧ hourOf now < 9
            then (ms.filter (selMorning now)).filterMap (logEntry "morning" ok)
            else [])
        ++ (ms.filter (sel1h now)).filterMap (logEntry "1h" ok) := by
  obtain ⟨e1m, e1l⟩ := section_round set24 (sel24 now) "24h" ok (fun _ => rfl)
    (fun _ => rfl) ms hnd (fun y => y) (fun _ => rfl) (fun _ => rfl) (fun _ => rfl)
    ms (by simp)
  have hf1id : ∀ y, ((roundFun set24 (sel24 now) ok (fun y => y)) y).id = y.id :=
    fun y => roundFun_acc Meeting.id set24 _ _ _ (fun z => rfl) y
  have hf1ph : ∀ y, ((roundFun set24 (sel24 now) ok (fun y => y)) y).client_number
      = y.client_number :=
    fun y => roundFun_acc Meeting.client_number set24 _ _ _ (fun z => rfl) y
  have hf1selM : ∀ y, selMorning now ((roundFun set24 (sel24 now) ok (fun y => y)) y)
      = selMorning now y :=
    fun y => roundFun_acc (selMorning now) set24 _ _ _ (fun z => rfl) y
  have hf1sel1 : ∀ y, sel1h now ((roundFun set24 (sel24 now) ok (fun y => y)) y)
      = sel1h now y :=
    fun y => roundFun_acc (sel1h now) set24 _ _ _ (fun z => rfl) y
  by_cases hg : 8 ≤ hourOf now ∧ hourOf now < 9
  · obtain ⟨e2m, e2l⟩ := section_round setMorning (selMorning now) "morning" ok
      (fun _ => rfl) (fun _ => rfl) ms hnd
      (roundFun set24 (sel24 now) ok (fun y => y)) hf1id hf1ph hf1selM
      (ms.map (roundFun set24 (sel24 now) ok (fun y => y))) rfl
    have hf2id : ∀ y, ((roundFun setMorning (selMorning now) ok
        (roundFun set24 (sel24 now) ok (fun y => y))) y).id = y.id := fun y => by
      rw [roundFun_acc Meeting.id setMorning _ _ _ (fun z => rfl) y, hf1id y]
    have hf2ph : ∀ y, ((roundFun setMorning (selMorning now) ok
        (roundFun set24 (sel24 now) ok (fun y => y))) y).client_number
        = y.client_number := fun y => by
      rw [roundFun_acc Meeting.client_number setMorning _ _ _ (fun z => rfl) y, hf1ph y]
    have hf2sel1 : ∀ y, sel1h now ((roundFun setMorning (selMorning now) ok
        (roundFun set24 (sel24 now) ok (fun y => y))) y) = sel1h now y := fun y => by
      rw [roundFun_acc (sel1h now) setMorning _ _ _ (fun z => rfl) y, hf1sel1 y]
    obtain ⟨e3m, e3l⟩ := section_round set1h (sel1h now) "1h" ok (fun _ => rfl)
      (fun _ => rfl) ms hnd
      (roundFun setMorning (selMorning now) ok
        (roundFun set24 (sel24 now) ok (fun y => y))) hf2id hf2ph hf2sel1
      (ms.map (roundFun setMorning (selMorning now) ok
        (roundFun set24 (sel24 now) ok (fun y => y)))) rfl
    constructor
    · simp only [send_meeting_reminders, if_pos hg]
      rw [e1m, e2m, e3m]
      simp only [sweepFun, if_pos hg]
    · simp only [send_meeting_reminders, if_pos hg]
      rw [e1m, e2l, e2m, e3l, e1l]
  · obtain ⟨e3m, e3l⟩ := section_round set1h (sel1h now) "1h" ok (fun _ => rfl)
      (fun _ => rfl) ms hnd
      (roundFun set24 (sel24 now) ok (fun y => y)) hf1id hf1ph hf1sel1
      (ms.map (roundFun set24 (sel24 now) ok (fun y => y))) rfl
    constructor
    · simp only [send_meeting_reminders, if_neg hg]
      rw [e1m, e3m]
      simp only [sweepFun, if_neg hg]
    · simp only [send_meeting_reminders, if_neg hg]
      rw [e1m, e3l, e1l]

/-- A logged entry determines the row: its id, type and outcome, and the
row had a phone number. -/
theorem logEntry_some (rt : String) (ok : Nat → Bool) (x : Meeting) (r : SendRec)
    (h : logEntry rt ok x = some r) :
    r = ⟨x.id, rt, ok x.id⟩ ∧ x.client_number.isSome = true := by
  unfold logEntry at h
  cases hx : x.client_number with
  | none =>
    rw [hx] at h
    simp at h
  | some v =>
    rw [hx] at h
    simp only [Option.some.injEq] at h
    exact ⟨h.symm, by simp [hx]⟩

/-- A section's log contains no entry of a different reminder type. -/
theorem log_rt_filter_ne (rt rt' : String) (hne : rt ≠ rt') (ok : Nat → Bool)
    (sel : List Meeting) (i : Nat) :
    ((sel.filterMap (logEntry rt ok)).filter
        (fun r => r.id == i && r.rtype == rt')) = [] := by
  rw [List.filter_eq_nil_iff]
  intro r hr
  obtain ⟨x, _, hlx⟩ := List.mem_filterMap.mp hr
  have hrx := (logEntry_some rt ok x r hlx).1
  simp [hrx, hne]

/-- A section's log has no entry for an id absent from the selection. -/
theorem log_none_filter (rt : String) (ok : Nat → Bool) (i : Nat)
    (sel : List Meeting) (hsel : ∀ y ∈ sel, y.id ≠ i) :
    ((sel.filterMap (logEntry rt ok)).filter
        (fun r => r.id == i && r.rtype == rt)) = [] := by
  rw [List.filter_eq_nil_iff]
  intro r hr
  obtain ⟨x, hx, hlx⟩ := List.mem_filterMap.mp hr
  have hrx := (logEntry_some rt ok x r hlx).1
  simp [hrx, hsel x hx]

/-- The entries a section's log holds for one member row of a unique-id
table: at most the one attempt for that row. -/
theorem log_self_filter (rt : String) (ok : Nat → Bool) (p : Meeting → Bool) :
    ∀ ms : List Meeting, (ms.map (fun mm => mm.id)).Nodup → ∀ m ∈ ms,
      (((ms.filter p).filterMap (logEntry rt ok)).filter
          (fun r => r.id == m.id && r.rtype == rt))
        = if p m && m.client_number.isSome then [⟨m.id, rt, ok m.id⟩] else [] := by
  intro ms
  induction ms with
  | nil =>
    intro _ m hm
    cases hm
  | cons y rest ih =>
    intro hnd m hm
    have hnd2 : (∀ x ∈ rest, ¬ x.id = y.id) ∧ (rest.map (fun mm => mm.id)).Nodup := by
      simpa using hnd
    rcases List.mem_cons.mp hm with rfl | hm'
    · have hrest : ∀ z ∈ rest.filter p, z.id ≠ m.id := by
        intro z hz he
        exact hnd2.1 z (List.mem_of_mem_filter hz) he
      cases hpy : p m with
      | false =>
        rw [List.filter_cons_of_neg (by simp [hpy])]
        rw [log_none_filter rt ok m.id (rest.filter p) hrest]
        simp [hpy]
      | true =>
        rw [List.filter_cons_of_pos hpy]
        cases hph : m.client_number with
        | none =>
          rw [List.filterMap_cons_none (by simp [logEntry, hph])]
          rw [log_none_filter rt ok m.id (rest.filter p) hrest]
          simp [hpy, hph]
        | some v =>
          rw [List.filterMap_cons_some
            (show logEntry rt ok m = some ⟨m.id, rt, ok m.id⟩ by simp [logEntry, hph])]
          rw [List.filter_cons_of_pos (by simp)]
          rw [log_none_filter rt ok m.id (rest.filter p) hrest]
          simp [hpy, hph]
    · have hyne : y.id ≠ m.id := by
        intro he
        exact hnd2.1 m hm' he.symm
      have htail := ih hnd2.2 m hm'
      cases hpy : p y with
      | false =>
        rw [List.filter_cons_of_neg (by simp [hpy])]
        exact htail
      | true =>
        rw [List.filter_cons_of_pos hpy]
        cases hph : y.client_number with
        | none =>
          rw [List.filterMap_cons_none (by simp [logEntry, hph])]
          exact htail
        | some v =>
          rw [List.filterMap_cons_some
            (show logEntry rt ok y = some ⟨y.id, rt, ok y.id⟩ by simp [logEntry, hph])]
          rw [List.filter_cons_of_neg (by simp [hyne])]
          exact htail

/-- A sweep preserves the list of row ids. -/
theorem sweep_ids (now : Nat) (ok : Nat → Bool) (ms : List Meeting)
    (hnd : (ms.map (fun mm => mm.id)).Nodup) :
    (send_meeting_reminders now ok ms).1.map (fun mm => mm.id)
      = ms.map (fun mm => mm.id) := by
  rw [(sweep_eq now ok ms hnd).1, List.map_map]
  apply List.map_congr_left
  intro y _
  simp only [Function.comp_apply]
  exact sweepFun_id now ok y

/-- How one sweep changes the stored flag of one member row. -/
theorem sweep_flag_char (th : Threshold) (now : Nat) (ok : Nat → Bool)
    (ms : List Meeting) (hnd : (ms.map (fun mm => mm.id)).Nodup)
    (m : Meeting) (hm : m ∈ ms) :
    flagIn th m.id (send_meeting_reminders now ok ms).1
      = some (th.flag m || (th.sel now m && (!m.client_number.isSome || ok m.id))) := by
  rw [flagIn, (sweep_eq now ok ms hnd).1,
    find?_map_pred_pres (sweepFun now ok) _ (fun a => by rw [sweepFun_id]),
    find?_self_of_nodup ms hnd m hm, Option.map_some', Option.map_some',
    sweepFun_flag]

/-- The image of a member row after one sweep. -/
theorem sweep_find (now : Nat) (ok : Nat → Bool) (ms : List Meeting)
    (hnd : (ms.map (fun mm => mm.id)).Nodup) (m : Meeting) (hm : m ∈ ms) :
    (send_meeting_reminders now ok ms).1.find? (fun x => x.id == m.id)
      = some (sweepFun now ok m) := by
  rw [(sweep_eq now ok ms hnd).1,
    find?_map_pred_pres (sweepFun now ok) _ (fun a => by rw [sweepFun_id]),
    find?_self_of_nodup ms hnd m hm, Option.map_some']

/-- A row whose flag is set is not selected for that threshold. -/
theorem th_sel_false_of_flag (th : Threshold) (now : Nat) (m : Meeting)
    (h : th.flag m = true) : th.sel now m = false := by
  cases th with
  | h24 =>
    simp only [Threshold.flag] at h
    simp [Threshold.sel, sel24, h]
  | morningOf =>
    simp only [Threshold.flag] at h
    simp [Threshold.sel, selMorning, h]
  | h1 =>
    simp only [Threshold.flag] at h
    simp [Threshold.sel, sel1h, h]

/-- The log entries of one sweep for one member row and one threshold: at
most the one attempt, made exactly when the row was selected and had a
phone number. -/
theorem sweep_log_filter (th : Threshold) (now : Nat) (ok : Nat → Bool)
    (ms : List Meeting) (hnd : (ms.map (fun mm => mm.id)).Nodup)
    (m : Meeting) (hm : m ∈ ms) :
    (send_meeting_reminders now ok ms).2.filter
        (fun r => r.id == m.id && r.rtype == th.rtype)
      = if th.sel now m && m.client_number.isSome
        then [⟨m.id, th.rtype, ok m.id⟩] else [] := by
  rw [(sweep_eq now ok ms hnd).2, List.filter_append, List.filter_append]
  cases th with
  | h24 =>
    simp only [Threshold.rtype, Threshold.sel]
    rw [log_self_filter "24h" ok (sel24 now) ms hnd m hm,
      log_rt_filter_ne "1h" "24h" (by decide) ok]
    by_cases hg : 8 ≤ hourOf now ∧ hourOf now < 9
    · rw [if_pos hg, log_rt_filter_ne "morning" "24h" (by decide) ok]
      simp
    · rw [if_neg hg]
      simp
  | morningOf =>
    simp only [Threshold.rtype, Threshold.sel]
    rw [log_rt_filter_ne "24h" "morning" (by decide) ok,
      log_rt_filter_ne "1h" "morning" (by decide) ok]
    by_cases hg : 8 ≤ hourOf now ∧ hourOf now < 9
    · rw [if_pos hg, log_self_filter "morning" ok (selMorning now) ms hnd m hm]
      rw [decide_eq_true hg, Bool.true_and]
      simp
    · rw [if_neg hg, decide_eq_false hg, Bool.false_and, Bool.false_and]
      simp
  | h1 =>
    simp only [Threshold.rtype, Threshold.sel]
    rw [log_self_filter "1h" ok (sel1h now) ms hnd m hm,
      log_rt_filter_ne "24h" "1h" (by decide) ok]
    by_cases hg : 8 ≤ hourOf now ∧ hourOf now < 9
    · rw [if_pos hg, log_rt_filter_ne "morning" "1h" (by decide) ok]
      simp
    · rw [if_neg hg]
      simp

/-- `countSucc` distributes over concatenated logs. -/
theorem countSucc_append (i : Nat) (th : Threshold) (l1 l2 : List SendRec) :
    countSucc i th (l1 ++ l2) = countSucc i th l1 + countSucc i th l2 := by
  simp [countSucc, List.filter_append]

/-- The successful dispatches one sweep logs for one member row and one
threshold: one iff the row was selected, had a phone number, and the
provider accepted. -/
theorem sweep_countSucc (th : Threshold) (now : Nat) (ok : Nat → Bool)
    (ms : List Meeting) (hnd : (ms.map (fun mm => mm.id)).Nodup)
    (m : Meeting) (hm : m ∈ ms) :
    countSucc m.id th (send_meeting_reminders now ok ms).2
      = if th.sel now m && m.client_number.isSome && ok m.id then 1 else 0 := by
  unfold countSucc
  have hcomm : (fun r : SendRec => r.id == m.id && r.rtype == th.rtype && r.success)
      = (fun r : SendRec => r.success && (r.id == m.id && r.rtype == th.rtype)) := by
    funext r
    rw [Bool.and_comm (r.id == m.id && r.rtype == th.rtype) r.success]
  rw [hcomm, ← List.filter_filter, sweep_log_filter th now ok ms hnd m hm]
  by_cases hsel : (th.sel now m && m.client_number.isSome) = true
  · rw [if_pos hsel]
    cases hok : ok m.id with
    | true => simp [hsel, hok]
    | false => simp [hsel, hok]
  · have hsel' : (th.sel now m && m.client_number.isSome) = false := by
      revert hsel
      cases (th.sel now m && m.client_number.isSome) <;> simp
    rw [if_neg hsel]
    simp [hsel']

/-- Across any sequence of sweeps, a row collects at most one successful
dispatch per threshold; once its flag is set it collects none. -/
theorem runs_at_most_once (th : Threshold) :
    ∀ (runs : List (Nat × (Nat → Bool))) (ms : List Meeting),
      (ms.map (fun mm => mm.id)).Nodup →
      ∀ m ∈ ms,
        countSucc m.id th (runReminderJobs runs ms).2 ≤ 1 ∧
        (th.flag m = true → countSucc m.id th (runReminderJobs runs ms).2 = 0) := by
  intro runs
  induction runs with
  | nil =>
    intro ms hnd m hm
    exact ⟨by simp [runReminderJobs, countSucc], fun _ => by simp [runReminderJobs, countSucc]⟩
  | cons run rest ih =>
    intro ms hnd m hm
    obtain ⟨now, okf⟩ := run
    have hrun2 : (runReminderJobs ((now, okf) :: rest) ms).2
        = (send_meeting_reminders now okf ms).2
          ++ (runReminderJobs rest (send_meeting_reminders now okf ms).1).2 := by
      simp [runReminderJobs]
    rw [hrun2, countSucc_append]
    have hc1 := sweep_countSucc th now okf ms hnd m hm
    have hnd1 : ((send_meeting_reminders now okf ms).1.map (fun mm => mm.id)).Nodup := by
      rw [sweep_ids now okf ms hnd]
      exact hnd
    have hm1 : sweepFun now okf m ∈ (send_meeting_reminders now okf ms).1 :=
      List.mem_of_find?_eq_some (sweep_find now okf ms hnd m hm)
    have ihm := ih (send_meeting_reminders now okf ms).1 hnd1 (sweepFun now okf m) hm1
    rw [sweepFun_id now okf m] at ihm
    by_cases hfl : th.flag m = true
    · have hc10 : countSucc m.id th (send_meeting_reminders now okf ms).2 = 0 := by
        rw [hc1, th_sel_false_of_flag th now m hfl]
        simp
      have hflag1 : th.flag (sweepFun now okf m) = true := by
        rw [sweepFun_flag th now okf m, hfl, Bool.true_or]
      have hrest0 := ihm.2 hflag1
      refine ⟨?_, fun _ => ?_⟩ <;> rw [hc10, hrest0]
      · omega
    · refine ⟨?_, fun hcon => absurd hcon hfl⟩
      by_cases hfire : (th.sel now m && m.client_number.isSome && okf m.id) = true
      · have hc11 : countSucc m.id th (send_meeting_reminders now okf ms).2 = 1 := by
          rw [hc1, if_pos hfire]
        have hflag1 : th.flag (sweepFun now okf m) = true := by
          rw [sweepFun_flag th now okf m]
          obtain ⟨⟨ha, hb⟩, hcc⟩ :
              (th.sel now m = true ∧ m.client_number.isSome = true) ∧ okf m.id = true := by
            simpa using hfire
          rw [ha, hb, hcc]
          simp
        have hrest0 := ihm.2 hflag1
        rw [hc11, hrest0]
      · have hc10 : countSucc m.id th (send_meeting_reminders now okf ms).2 = 0 := by
          rw [hc1, if_neg hfire]
        rw [hc10]
        simpa using ihm.1

/-- Claim C4: for every booking and every reminder threshold, running the
sweep any number of times dispatches at most one successful notification
for that booking at that threshold.  Per sweep, the `reminder_*_sent` flag
ends up set exactly when it already was, or the booking was selected and
either the dispatch succeeded or the booking has no phone number; flags
are never reset; and a booking whose flag is set is never selected by a
later sweep for that threshold (its flag stays set and no dispatch attempt
for it is logged). -/
theorem reminder_sweep_at_most_once (th : Threshold) (ms : List Meeting)
    (hnd : (ms.map (fun mm => mm.id)).Nodup) :
    (∀ (now : Nat) (ok : Nat → Bool) (m : Meeting), m ∈ ms →
        flagIn th m.id (send_meeting_reminders now ok ms).1
          = some (th.flag m
              || (th.sel now m && (!m.client_number.isSome || ok m.id)))) ∧
    (∀ (now : Nat) (ok : Nat → Bool) (m : Meeting), m ∈ ms → th.flag m = true →
        flagIn th m.id (send_meeting_reminders now ok ms).1 = some true ∧
        (send_meeting_reminders now ok ms).2.filter
            (fun r => r.id == m.id && r.rtype == th.rtype) = []) ∧
    (∀ (runs : List (Nat × (Nat → Bool))) (m : Meeting), m ∈ ms →
        countSucc m.id th (runReminderJobs runs ms).2 ≤ 1) := by
  refine ⟨?_, ?_, ?_⟩
  · intro now ok m hm
    exact sweep_flag_char th now ok ms hnd m hm
  · intro now ok m hm hfl
    constructor
    · rw [sweep_flag_char th now ok ms hnd m hm, hfl, Bool.true_or]
    · rw [sweep_log_filter th now ok ms hnd m hm, th_sel_false_of_flag th now m hfl]
      simp
  · intro runs m hm
    exact (runs_at_most_once th runs ms hnd m hm).1

/-- Witness for C4: a single confirmed booking with a phone number, two
sweeps in immediate succession with an always-successful provider. -/
theorem reminder_sweep_at_most_once_witness :
    countSucc 1 Threshold.h24
        (runReminderJobs [(0, fun _ => true), (30, fun _ => true)]
          [⟨1, "Jane", "a@b.c", "Acme", 1500, "g", 9000, some "+27821234567",
            some 5, "confirmed", false, false, false⟩]).2 ≤ 1 :=
  (reminder_sweep_at_most_once Threshold.h24
      [⟨1, "Jane", "a@b.c", "Acme", 1500, "g", 9000, some "+27821234567",
        some 5, "confirmed", false, false, false⟩] (by simp)).2.2
    [(0, fun _ => true), (30, fun _ => true)]
    ⟨1, "Jane", "a@b.c", "Acme", 1500, "g", 9000, some "+27821234567",
      some 5, "confirmed", false, false, false⟩
    (List.mem_singleton.mpr rfl)
